import Mathlib

/-!
Verification of the UT Austin apartment-finder map application
(`static/app.js` and its revisions).

The repository is a browser application built around one class,
`WestCampusMap`.  The logic-bearing parts are embedded here as pure Lean
functions and explicit state-passing:

* JavaScript numbers are modelled by `JsNum` (NaN, an infinity, or an
  integer).  The price strings and filter thresholds appearing in this
  program only ever produce integral values, so the integer case uses
  `Int`; fractional numerals are outside the model and are noted where
  relevant.
* `parsePriceRange`, `isPriceInRange`, `getFilteredApartments`,
  `renderMarkers`, `selectApartment`, `clearSelection` and
  `filterByPrice` are translated from the later revision of the source
  (the revision that has the price filter).
* The async data loaders (`getNeighborhoodData`, `loadData`) are
  modelled as pure functions of the fetch outcomes; a thrown/caught
  exception path in the source corresponds to a constructor of the
  outcome type, so totality of the Lean function expresses that the
  source swallows the exception.
* The debounced `updateOverlay` of the later revision is modelled as a
  state machine over invocation/animation-frame events.
-/

namespace ApartmentFinder

/-! ### JavaScript number semantics -/

/-- A JavaScript number as it occurs in this program: `NaN`, an
infinity, or an integral value. -/
inductive JsNum where
  | nan
  | inf
  | ninf
  | num (v : Int)
deriving DecidableEq, Repr

/-- JavaScript `<=` on numbers: any comparison with `NaN` is false. -/
def jsLe : JsNum → JsNum → Bool
  | .nan, _ => false
  | _, .nan => false
  | .ninf, _ => true
  | _, .inf => true
  | .inf, _ => false
  | .num _, .ninf => false
  | .num a, .num b => a ≤ b

/-- Truthiness of a JavaScript number: `0` and `NaN` are falsy. -/
def jsNumTruthy : JsNum → Bool
  | .nan => false
  | .inf => true
  | .ninf => true
  | .num v => !(v == 0)

/-- `Number.isFinite` on a possibly-absent field: `undefined`, `NaN`
and the infinities are not finite. -/
def jsIsFinite : Option JsNum → Bool
  | some (.num _) => true
  | _ => false

/-- Truthiness of a nullable number (`null` is falsy). -/
def jsOptTruthy : Option JsNum → Bool
  | none => false
  | some n => jsNumTruthy n

/-- JavaScript unary `+` on a nullable number (`+null` is `0`). -/
def jsOptToNumber : Option JsNum → JsNum
  | none => JsNum.num 0
  | some n => n

/-! ### Character helpers used by the string routines -/

def isJsWhitespaceChar (c : Char) : Bool :=
  c == ' ' || c == '\t' || c == '\n' || c == '\r' || c == '\x0b' || c == '\x0c'

def isAsciiDigit (c : Char) : Bool :=
  '0' ≤ c && c ≤ '9'

def isHexDigitChar (c : Char) : Bool :=
  isAsciiDigit c || ('a' ≤ c && c ≤ 'f') || ('A' ≤ c && c ≤ 'F')

def decDigitsVal (ds : List Char) : Int :=
  ds.foldl (fun acc c => acc * 10 + Int.ofNat (c.toNat - 48)) 0

def hexDigitVal (c : Char) : Nat :=
  if isAsciiDigit c then c.toNat - 48
  else if 'a' ≤ c && c ≤ 'f' then c.toNat - 87
  else c.toNat - 55

def hexDigitsVal (ds : List Char) : Int :=
  ds.foldl (fun acc c => acc * 16 + Int.ofNat (hexDigitVal c)) 0

/-! ### `parseInt` -/

/-- The digit-consuming part of JavaScript `parseInt` after the sign has
been taken: an optional `0x`/`0X` prefix switches to hexadecimal, the
longest digit run is consumed (trailing garbage is ignored), and no
digits at all gives `NaN`. -/
def parseIntDigits (l : List Char) (sign : Int) : JsNum :=
  match l with
  | '0' :: 'x' :: rest =>
      let ds := rest.takeWhile isHexDigitChar
      if ds.isEmpty then JsNum.nan else JsNum.num (sign * hexDigitsVal ds)
  | '0' :: 'X' :: rest =>
      let ds := rest.takeWhile isHexDigitChar
      if ds.isEmpty then JsNum.nan else JsNum.num (sign * hexDigitsVal ds)
  | _ =>
      let ds := l.takeWhile isAsciiDigit
      if ds.isEmpty then JsNum.nan else JsNum.num (sign * decDigitsVal ds)

/-- JavaScript `parseInt(s)` (radix argument omitted): skip leading
whitespace, take an optional sign, then parse digits. -/
def jsParseIntChars (l : List Char) : JsNum :=
  match l.dropWhile isJsWhitespaceChar with
  | '-' :: rest => parseIntDigits rest (-1)
  | '+' :: rest => parseIntDigits rest 1
  | t => parseIntDigits t 1

def jsParseInt (s : String) : JsNum :=
  jsParseIntChars s.data

/-! ### `parsePriceRange` (source: the later revision of app.js) -/

/-- `priceString.replace(/s/g, '')`: remove every `'s'`. -/
def removeAllS (l : List Char) : List Char :=
  l.filter (fun c => !(c == 's'))

/-- `part.replace(/[$,]/g, '')`: remove every `'$'` and `','`. -/
def removeDollarComma (l : List Char) : List Char :=
  l.filter (fun c => !(c == '$') && !(c == ','))

/-- `cleanString.split('-')`: split on every hyphen, keeping empty
segments, as JavaScript `String.prototype.split` does. -/
def splitOnHyphen : List Char → List (List Char)
  | [] => [[]]
  | c :: rest =>
      if c = '-' then
        [] :: splitOnHyphen rest
      else
        match splitOnHyphen rest with
        | [] => [[c]]
        | h :: t => (c :: h) :: t

/-- The minimum and maximum of a parsed price label. -/
structure PriceRange where
  min : JsNum
  max : JsNum
deriving DecidableEq, Repr

/-- The branch of `parsePriceRange` on the hyphen-split segments:
one segment gives a point range, two give a pair, anything else gives
the unbounded range `{min: 0, max: Infinity}`. -/
def rangeOfParts : List (List Char) → PriceRange
  | [p] =>
      let price := jsParseIntChars (removeDollarComma p)
      ⟨price, price⟩
  | [p, q] =>
      ⟨jsParseIntChars (removeDollarComma p), jsParseIntChars (removeDollarComma q)⟩
  | _ => ⟨JsNum.num 0, JsNum.inf⟩

/-- `parsePriceRange(priceString)` from the later revision: a falsy
(empty) input gives the unbounded range, otherwise every `'s'` is
removed, the result is split on `'-'`, and each segment is parsed with
`parseInt` after removing `'$'` and `','`. -/
def parsePriceRange (priceString : String) : PriceRange :=
  if priceString = "" then
    ⟨JsNum.num 0, JsNum.inf⟩
  else
    rangeOfParts (splitOnHyphen (removeAllS priceString.data))

/-! ### Listings and `isPriceInRange` -/

/-- One apartment listing as served by `/api/apartments` (spec section 3).
`price_min` is the optional numeric minimum-price field; `none` models
an absent (`undefined`) field. -/
structure Apartment where
  name : String
  address : String
  lat : JsNum
  lon : JsNum
  price_per_person : String
  price_min : Option JsNum
  photo : Option String
  notes : String
  website : Option String
deriving DecidableEq, Repr

/-- Fixture builder for concrete test listings (remaining fields are
irrelevant to price filtering). -/
def mkListing (name pricePerPerson : String) (priceMin : Option JsNum) : Apartment :=
  ⟨name, "", JsNum.num 0, JsNum.num 0, pricePerPerson, priceMin, none, "", none⟩

/-- `isPriceInRange(apartment, maxPrice)` from the later revision: a
falsy threshold (null, 0 or NaN) passes everything; otherwise the
listing's own `price_min` is used when present and finite, else the
minimum of its parsed display price string. -/
def isPriceInRange (apartment : Apartment) (maxPrice : Option JsNum) : Bool :=
  if jsOptTruthy maxPrice = false then
    true
  else
    let numericMax := jsOptToNumber maxPrice
    if jsIsFinite apartment.price_min then
      jsLe (jsOptToNumber apartment.price_min) numericMax
    else
      jsLe (parsePriceRange apartment.price_per_person).min numericMax

/-- The listing's effective minimum price: `price_min` when present and
finite, otherwise the minimum of the parsed display price string.  This
is the spec's description of the value `isPriceInRange` compares. -/
def listingMin (apartment : Apartment) : JsNum :=
  if jsIsFinite apartment.price_min then
    jsOptToNumber apartment.price_min
  else
    (parsePriceRange apartment.price_per_person).min

/-! ### Markers, application state, and the marker/selection operations -/

/-- One rendered marker element: the listing datum bound to it (whose
`name` is the reconciliation key) and whether it carries the
`selected` class. -/
structure Marker where
  datum : Apartment
  selected : Bool
deriving DecidableEq, Repr

/-- The mutable fields of `WestCampusMap` that the marker, filter and
selection operations touch.  `markers` models the children of the
overlay group `this.g` in document order; `panel` models the info-panel
content (`none` is the empty-state placeholder rendered by
`updateInfoPanel(null)`). -/
structure AppState where
  apartments : List Apartment
  currentPriceFilter : Option JsNum
  markers : List Marker
  panel : Option Apartment
deriving DecidableEq, Repr

/-- `getFilteredApartments()` from the later revision: empty listings
give the empty list; a truthy filter narrows by `isPriceInRange`; a
falsy filter returns the listings unchanged. -/
def getFilteredApartments (apartments : List Apartment) (currentPriceFilter : Option JsNum) :
    List Apartment :=
  if apartments.isEmpty then
    []
  else if jsOptTruthy currentPriceFilter then
    apartments.filter (fun apartment => isPriceInRange apartment currentPriceFilter)
  else
    apartments

/-- `renderMarkers(apartments)` from the later revision, as the keyed
data join it performs on `this.g`: an empty input removes every marker;
otherwise elements whose key (bound datum's `name`) matches an incoming
listing are kept with the datum rebound, listings with no matching
element enter as fresh unselected markers appended at the end, and
elements whose key matches no listing exit and are removed. -/
def renderMarkers (apartments : List Apartment) (markers : List Marker) : List Marker :=
  if apartments.isEmpty then
    []
  else
    let update :=
      (markers.filter (fun m => apartments.any (fun a => a.name == m.datum.name))).map
        (fun m =>
          { m with datum := (apartments.find? (fun a => a.name == m.datum.name)).getD m.datum })
    let enter :=
      (apartments.filter (fun a => !(markers.any (fun m => m.datum.name == a.name)))).map
        (fun a => ⟨a, false⟩)
    update ++ enter

/-- One overlay render pass (`renderMarkers(this.getFilteredApartments())`,
as invoked from `updateOverlay` and `renderMap`). -/
def renderPass (s : AppState) : AppState :=
  { s with markers := renderMarkers (getFilteredApartments s.apartments s.currentPriceFilter) s.markers }

/-- `selectApartment(apartment)`: render the detail panel for the
listing, clear the `selected` class everywhere, then set it on the
markers whose datum has the chosen name. -/
def selectApartment (apartment : Apartment) (s : AppState) : AppState :=
  { s with
      panel := some apartment
      markers := s.markers.map (fun m => { m with selected := m.datum.name == apartment.name }) }

/-- `clearSelection()`: clear the `selected` class on every marker and
revert the panel to the empty state. -/
def clearSelection (s : AppState) : AppState :=
  { s with
      markers := s.markers.map (fun m => { m with selected := false })
      panel := none }

/-! ### The DOM/JS value passed to `filterByPrice` -/

/-- The value handed to `filterByPrice`: the select control passes a
string; the claims also consider a numeric or null argument. -/
inductive JsVal where
  | str (s : String)
  | jnum (n : JsNum)
  | null
deriving DecidableEq, Repr

def jsTruthy : JsVal → Bool
  | .str s => !(s == "")
  | .jnum n => jsNumTruthy n
  | .null => false

/-- JavaScript string-to-number coercion as used by unary `+` here:
trimmed empty string is `0`, an optionally signed digit string is its
integer value, a signed `Infinity` literal is infinite, anything else is
`NaN`.  (Fractional and hexadecimal numerals never occur in this
program's select values and are outside the model.) -/
def jsStrToNumber (s : String) : JsNum :=
  let t := ((s.data.dropWhile isJsWhitespaceChar).reverse.dropWhile isJsWhitespaceChar).reverse
  if t.isEmpty then
    JsNum.num 0
  else
    let signBody : Int × List Char :=
      match t with
      | '-' :: rest => (-1, rest)
      | '+' :: rest => (1, rest)
      | _ => (1, t)
    if signBody.2 = "Infinity".data then
      (if signBody.1 = 1 then JsNum.inf else JsNum.ninf)
    else if !signBody.2.isEmpty && signBody.2.all isAsciiDigit then
      JsNum.num (signBody.1 * decDigitsVal signBody.2)
    else
      JsNum.nan

/-- JavaScript unary `+` (ToNumber) on the values above. -/
def jsToNumber : JsVal → JsNum
  | .str s => jsStrToNumber s
  | .jnum n => n
  | .null => JsNum.num 0

/-- `filterByPrice(maxPrice)` from the later revision: store
`maxPrice ? +maxPrice : null` as the current filter, re-render the
markers from the filtered listing set, then look for a rendered element
that still has the `selected` class (`this.g.select` returns the first
one) and clear the selection when its datum fails the new filter. -/
def filterByPrice (maxPrice : JsVal) (s : AppState) : AppState :=
  let filt : Option JsNum := if jsTruthy maxPrice then some (jsToNumber maxPrice) else none
  let filteredApartments :=
    s.apartments.filter (fun apartment => isPriceInRange apartment filt)
  let s1 : AppState :=
    { s with
        currentPriceFilter := filt
        markers := renderMarkers filteredApartments s.markers }
  match s1.markers.find? (fun m => m.selected) with
  | none => s1
  | some selectedMarker =>
      if !(isPriceInRange selectedMarker.datum filt) then clearSelection s1 else s1

/-! ### Neighborhood boundary data and the loaders -/

structure GeoProperties where
  neighname : String
deriving DecidableEq, Repr

structure Geometry where
  type : String
  coordinates : List (List (List (JsNum × JsNum)))
deriving DecidableEq, Repr

structure Feature where
  type : String
  properties : GeoProperties
  geometry : Geometry
deriving DecidableEq, Repr

structure FeatureCollection where
  type : String
  features : List Feature
deriving DecidableEq, Repr

/-- Outcome of one `fetch` + `response.json()` round trip: a parsed
value, a non-ok HTTP response, or a thrown error (network failure or
JSON parse failure). -/
inductive FetchOutcome (α : Type) where
  | ok (value : α)
  | httpError (status : Nat)
  | thrown
deriving DecidableEq, Repr

/-- `getFallbackNeighborhoodData(neighname)`: the static placeholder
feature collection with the requested name and empty coordinates. -/
def getFallbackNeighborhoodData (neighname : String) : FeatureCollection :=
  ⟨"FeatureCollection", [⟨"Feature", ⟨neighname⟩, ⟨"MultiPolygon", [[[]]]⟩⟩]⟩

/-- `getNeighborhoodData(neighname)` as a function of the fetch
outcome: an ok response yields its body; a non-ok response or a caught
thrown error yields the fallback.  Totality of this function models
that the source catches every failure instead of propagating it. -/
def getNeighborhoodData (neighname : String) (outcome : FetchOutcome FeatureCollection) :
    FeatureCollection :=
  match outcome with
  | .ok value => value
  | .httpError _ => getFallbackNeighborhoodData neighname
  | .thrown => getFallbackNeighborhoodData neighname

/-- The data fields `loadData` assigns. -/
structure LoadState where
  apartments : List Apartment
  westUniversityNeighborhood : Option FeatureCollection
  utCampusNeighborhood : Option FeatureCollection
deriving DecidableEq, Repr

/-- The constructor's initial values of those fields. -/
def initialLoadState : LoadState :=
  ⟨[], none, none⟩

/-- Outcome of the `/api/apartments` leg of the joint await: a parsed
listing array, a non-ok response (which `loadData` turns into a thrown
error), a rejected fetch, or a body that fails JSON parsing. -/
inductive ApartmentsFetch where
  | ok (apartments : List Apartment)
  | httpError (status : Nat)
  | netError
  | parseError
deriving DecidableEq, Repr

def isApartmentsFailure : ApartmentsFetch → Bool
  | .ok _ => false
  | _ => true

/-- Observable result of `loadData`: the data fields afterwards, how
many toasts were shown, and whether `renderMap` ran. -/
structure LoadResult where
  state : LoadState
  toasts : Nat
  rendered : Bool
deriving DecidableEq, Repr

/-- `loadData()` from the later revision, as a function of the three
fetch outcomes.  On success all three fields are assigned and
`renderMap` runs.  Any listings failure (rejected fetch, non-ok status,
or JSON parse error) reaches the catch block before any field is
assigned, so the fields keep their prior values; the catch still calls
`renderMap` and shows one toast.  The boundary legs never fail
(`getNeighborhoodData` handles its own errors).  Totality models that
the catch swallows the exception. -/
def loadData (prior : LoadState) (apartmentsFetch : ApartmentsFetch)
    (westOutcome utOutcome : FetchOutcome FeatureCollection) : LoadResult :=
  match apartmentsFetch with
  | .ok apartments =>
      ⟨⟨apartments,
        some (getNeighborhoodData "WEST UNIVERSITY" westOutcome),
        some (getNeighborhoodData "UT" utOutcome)⟩, 0, true⟩
  | .httpError _ => ⟨prior, 1, true⟩
  | .netError => ⟨prior, 1, true⟩
  | .parseError => ⟨prior, 1, true⟩

/-! ### The debounced `updateOverlay` of the later revision -/

/-- Observable overlay-sync state: whether a `requestAnimationFrame`
callback is pending (`this.scheduleUpdate` is truthy) and how many
times the reposition work has run. -/
structure OverlayState where
  pending : Bool
  workRuns : Nat
deriving DecidableEq, Repr

/-- Events driving the overlay machine: an `updateOverlay()` invocation
(map event) or an animation-frame tick that runs the pending callback
if there is one. -/
inductive OverlayEvent where
  | invoke
  | frame
deriving DecidableEq, Repr

def isFrame : OverlayEvent → Bool
  | .frame => true
  | .invoke => false

/-- One step of the later revision's `updateOverlay` protocol:
`invoke` returns immediately while a callback is pending, otherwise
schedules one; `frame` runs the pending callback, which first clears
the flag and then performs the reposition work. -/
def overlayStep (s : OverlayState) : OverlayEvent → OverlayState
  | .invoke => if s.pending then s else { s with pending := true }
  | .frame => if s.pending then ⟨false, s.workRuns + 1⟩ else s

def overlayRun (s : OverlayState) (events : List OverlayEvent) : OverlayState :=
  events.foldl overlayStep s

/-! ### Invariant vocabulary and test fixtures -/

/-- Listing names are pairwise distinct (the spec's "name (unique key)"
data invariant). -/
def NamesNodup (l : List Apartment) : Prop :=
  (l.map Apartment.name).Nodup

/-- Rendered marker keys are pairwise distinct. -/
def MarkerNamesNodup (markers : List Marker) : Prop :=
  (markers.map (fun m => m.datum.name)).Nodup

/-- How many rendered markers carry the `selected` class. -/
def selectedCount (s : AppState) : Nat :=
  (s.markers.filter (fun m => m.selected)).length

/-- A selection-affecting user interaction: clicking a marker
(`selectApartment` on its datum) or clicking the map background
(`clearSelection`). -/
inductive SelOp where
  | choose (apartment : Apartment)
  | clear
deriving DecidableEq, Repr

def applySelOp (s : AppState) : SelOp → AppState
  | .choose apartment => selectApartment apartment s
  | .clear => clearSelection s

def applySelOps (s : AppState) (ops : List SelOp) : AppState :=
  ops.foldl applySelOp s

/-- Concrete listings used by the witnesses. -/
def sampleAxis : Apartment := mkListing "Axis" "$900s" (some (JsNum.num 900))

def sampleBlock : Apartment := mkListing "Block" "$2,600s" (some (JsNum.num 2600))

def sampleState : AppState :=
  ⟨[sampleAxis, sampleBlock], some (JsNum.num 1000), [⟨sampleAxis, false⟩, ⟨sampleBlock, true⟩], none⟩

/-- A state in which the only listing is selected, its marker rendered,
and its details shown in the panel: listing price minimum 950. -/
def selectedState : AppState :=
  ⟨[mkListing "Axis" "$950s" (some (JsNum.num 950))], none,
   [⟨mkListing "Axis" "$950s" (some (JsNum.num 950)), true⟩],
   some (mkListing "Axis" "$950s" (some (JsNum.num 950)))⟩

/-- A nonempty boundary feature collection, standing for a successful
boundary fetch body. -/
def sampleBoundary : FeatureCollection :=
  ⟨"FeatureCollection",
   [⟨"Feature", ⟨"WEST UNIVERSITY"⟩,
     ⟨"MultiPolygon", [[[(JsNum.num 30, JsNum.num (-97)), (JsNum.num 31, JsNum.num (-97))]]]⟩⟩]⟩

/-! ## Theorems for the claims -/

theorem splitOnHyphen_ne_nil (l : List Char) : splitOnHyphen l ≠ [] := by
  cases l with
  | nil => simp [splitOnHyphen]
  | cons c rest =>
      simp only [splitOnHyphen]
      split
      · simp
      · cases splitOnHyphen rest <;> simp

theorem splitOnHyphen_length (l : List Char) :
    (splitOnHyphen l).length = l.count '-' + 1 := by
  induction l with
  | nil => simp [splitOnHyphen]
  | cons c rest ih =>
      simp only [splitOnHyphen]
      by_cases hc : c = '-'
      · simp [hc, List.count_cons, ih]
      · rw [if_neg hc]
        have hne := splitOnHyphen_ne_nil rest
        cases hsp : splitOnHyphen rest with
        | nil => exact absurd hsp hne
        | cons h t =>
            have : (h :: t).length = rest.count '-' + 1 := by rw [← hsp]; exact ih
            simp [List.count_cons, hc, ← this]

theorem splitOnHyphen_of_count_zero (l : List Char) (h : l.count '-' = 0) :
    splitOnHyphen l = [l] := by
  induction l with
  | nil => simp [splitOnHyphen]
  | cons c rest ih =>
      rw [List.count_cons] at h
      by_cases hc : c = '-'
      · simp [hc] at h
      · have hrest : rest.count '-' = 0 := by
          simp [hc] at h
          omega
        simp only [splitOnHyphen, if_neg hc, ih hrest]

/-- Claim C2 (counterexample): the claim says any unparseable input
yields the unbounded range, but a non-numeric hyphen-free input such as
"abc" yields the NaN range instead. -/
theorem claim2_counterexample :
    parsePriceRange "abc" = ⟨JsNum.nan, JsNum.nan⟩ ∧
    parsePriceRange "abc" ≠ ⟨JsNum.num 0, JsNum.inf⟩ := by
  decide

/-- Claim C2 (amended): parsePriceRange removes every letter s, splits
on hyphens, and parses each segment with parseInt after stripping
dollar signs and commas; an empty input or one whose cleaned form holds
two or more hyphens yields the unbounded range, a hyphen-free input
yields a point range (min = max), and the three spec examples hold. -/
theorem claim2_parsePriceRange_amended :
    parsePriceRange "900s" = ⟨JsNum.num 900, JsNum.num 900⟩ ∧
    parsePriceRange "$900s-$2,600s" = ⟨JsNum.num 900, JsNum.num 2600⟩ ∧
    parsePriceRange "" = ⟨JsNum.num 0, JsNum.inf⟩ ∧
    (∀ s : String, 2 ≤ (removeAllS s.data).count '-' →
        parsePriceRange s = ⟨JsNum.num 0, JsNum.inf⟩) ∧
    (∀ s : String, s ≠ "" → (removeAllS s.data).count '-' = 0 →
        (parsePriceRange s).min = (parsePriceRange s).max) := by
  refine ⟨by decide, by decide, by decide, ?_, ?_⟩
  · intro s h2
    have hne : s ≠ "" := by
      intro he
      rw [he] at h2
      simp [removeAllS, String.data] at h2
    rw [parsePriceRange, if_neg hne]
    have hlen : 3 ≤ (splitOnHyphen (removeAllS s.data)).length := by
      rw [splitOnHyphen_length]
      omega
    cases hsp : splitOnHyphen (removeAllS s.data) with
    | nil => rw [hsp] at hlen; simp at hlen
    | cons a rest =>
        cases rest with
        | nil => rw [hsp] at hlen; simp at hlen
        | cons b rest2 =>
            cases rest2 with
            | nil => rw [hsp] at hlen; simp at hlen
            | cons c rest3 => rfl
  · intro s hne h0
    rw [parsePriceRange, if_neg hne, splitOnHyphen_of_count_zero _ h0]
    rfl

/-- Claim C2 (witness): the amended theorem applied at concrete
inputs discharging each hypothesis. -/
theorem claim2_witness :
    parsePriceRange "1-2-3" = ⟨JsNum.num 0, JsNum.inf⟩ ∧
    (parsePriceRange "900s").min = (parsePriceRange "900s").max :=
  ⟨claim2_parsePriceRange_amended.2.2.2.1 "1-2-3" (by decide),
   claim2_parsePriceRange_amended.2.2.2.2 "900s" (by decide) (by decide)⟩

/-- Claim C3: isPriceInRange passes everything when the threshold is
unset (falsy), and otherwise accepts exactly the listings whose
effective minimum price (price_min when present and finite, else the
parsed display price minimum) is at most the threshold under JavaScript
comparison; the two spec examples hold. -/
theorem claim3_isPriceInRange :
    (∀ (a : Apartment) (t : Option JsNum),
        isPriceInRange a t =
          (if jsOptTruthy t then jsLe (listingMin a) (jsOptToNumber t) else true)) ∧
    isPriceInRange (mkListing "A" "" (some (JsNum.num 850))) (some (JsNum.num 900)) = true ∧
    isPriceInRange (mkListing "B" "" (some (JsNum.num 950))) (some (JsNum.num 900)) = false := by
  refine ⟨fun a t => ?_, by decide, by decide⟩
  simp only [isPriceInRange, listingMin]
  cases ht : jsOptTruthy t
  · simp [ht]
  · cases hf : jsIsFinite a.price_min <;> simp [ht, hf]

/-- Claim C10 (counterexample): filterByPrice("0") stores the numeric
value 0 as the current filter, not the absence of a filter ("0" is a
truthy string, so the conditional takes the +maxPrice branch). -/
theorem claim10_counterexample :
    (filterByPrice (JsVal.str "0") ⟨[], none, [], none⟩).currentPriceFilter
        = some (JsNum.num 0) ∧
    some (JsNum.num 0) ≠ (none : Option JsNum) := by
  decide

/-- The filter stored by filterByPrice is exactly
`maxPrice ? +maxPrice : null`, whatever the selection check does. -/
theorem filterByPrice_currentPriceFilter (v : JsVal) (s : AppState) :
    (filterByPrice v s).currentPriceFilter =
      if jsTruthy v then some (jsToNumber v) else none := by
  simp only [filterByPrice]
  repeat' split
  all_goals simp [clearSelection]

/-- Claim C10 (amended): a zero threshold never excludes any listing --
isPriceInRange(listing, 0) is always true and a zero-valued filter
leaves getFilteredApartments at the full listing set -- but
filterByPrice stores null only for falsy arguments such as numeric 0;
the truthy string "0" is stored as the number 0 (which is equally
falsy as a filter). -/
theorem claim10_zero_threshold_amended :
    (∀ a : Apartment, isPriceInRange a (some (JsNum.num 0)) = true) ∧
    (∀ s : AppState, (filterByPrice (JsVal.jnum (JsNum.num 0)) s).currentPriceFilter = none) ∧
    (∀ s : AppState, (filterByPrice (JsVal.str "0") s).currentPriceFilter
        = some (JsNum.num 0)) ∧
    (∀ l : List Apartment, getFilteredApartments l (some (JsNum.num 0)) = l) ∧
    (∀ l : List Apartment, getFilteredApartments l none = l) := by
  refine ⟨fun a => rfl, fun s => ?_, fun s => ?_, fun l => ?_, fun l => ?_⟩
  · rw [filterByPrice_currentPriceFilter]
    rfl
  · rw [filterByPrice_currentPriceFilter]
    rfl
  · cases l <;> simp [getFilteredApartments, jsOptTruthy, jsNumTruthy]
  · cases l <;> simp [getFilteredApartments, jsOptTruthy]

theorem find_name_of_nodup (apts : List Apartment) (a : Apartment)
    (hnd : NamesNodup apts) (ha : a ∈ apts) :
    apts.find? (fun x => x.name == a.name) = some a := by
  induction apts with
  | nil => cases ha
  | cons b rest ih =>
      rw [NamesNodup, List.map_cons, List.nodup_cons] at hnd
      by_cases hb : ((fun x => x.name == a.name) b = true)
      · have hba : b.name = a.name := by simpa using hb
        have hab : a = b := by
          rcases List.mem_cons.mp ha with h | h
          · exact h
          · exact absurd (hba ▸ List.mem_map_of_mem Apartment.name h) hnd.1
        rw [List.find?_cons_of_pos rest hb, hab]
      · have hne : a ≠ b := by
          intro h
          rw [h] at hb
          simp at hb
        have ha2 : a ∈ rest := by
          rcases List.mem_cons.mp ha with h | h
          · exact absurd h hne
          · exact h
        rw [List.find?_cons_of_neg rest hb]
        exact ih hnd.2 ha2

theorem mem_renderMarkers_datums (apts : List Apartment) (ms : List Marker)
    (hnd : NamesNodup apts) (a : Apartment) :
    a ∈ (renderMarkers apts ms).map Marker.datum ↔ a ∈ apts := by
  by_cases hemp : apts.isEmpty
  · have h0 : apts = [] := List.isEmpty_iff.mp hemp
    subst h0
    simp [renderMarkers]
  · rw [renderMarkers, if_neg hemp]
    rw [List.map_append, List.mem_append]
    constructor
    · rintro (h | h)
      · rw [List.map_map, List.mem_map] at h
        obtain ⟨m, hm, heq⟩ := h
        rw [List.mem_filter] at hm
        obtain ⟨x, hx_mem, hx⟩ := List.any_eq_true.mp hm.2
        have hsome : (apts.find? (fun x => x.name == m.datum.name)).isSome := by
          rw [List.find?_isSome]
          exact ⟨x, hx_mem, hx⟩
        obtain ⟨y, hy⟩ := Option.isSome_iff_exists.mp hsome
        have hy_mem := List.mem_of_find?_eq_some hy
        have hya : y = a := by
          simpa [Function.comp, hy] using heq
        exact hya ▸ hy_mem
      · rw [List.map_map, List.mem_map] at h
        obtain ⟨x, hx, heq⟩ := h
        rw [List.mem_filter] at hx
        have hxa : x = a := by simpa [Function.comp] using heq
        exact hxa ▸ hx.1
    · intro ha
      by_cases hms : ms.any (fun m => m.datum.name == a.name) = true
      · left
        rw [List.map_map, List.mem_map]
        obtain ⟨m, hm_mem, hm_name⟩ := List.any_eq_true.mp hms
        have hmn : m.datum.name = a.name := by simpa using hm_name
        refine ⟨m, List.mem_filter.mpr ⟨hm_mem, List.any_eq_true.mpr ⟨a, ha, by simp [hmn]⟩⟩, ?_⟩
        show ((apts.find? (fun x => x.name == m.datum.name)).getD m.datum) = a
        rw [hmn, find_name_of_nodup apts a hnd ha]
        rfl
      · right
        have hms2 : ms.any (fun m => m.datum.name == a.name) = false := by simpa using hms
        rw [List.map_map, List.mem_map]
        exact ⟨a, List.mem_filter.mpr ⟨ha, by simp [hms2]⟩, rfl⟩

theorem getFilteredApartments_eq_filter (apts : List Apartment) (filt : Option JsNum) :
    getFilteredApartments apts filt = apts.filter (fun a => isPriceInRange a filt) := by
  rw [getFilteredApartments]
  by_cases hemp : apts.isEmpty
  · have h0 : apts = [] := List.isEmpty_iff.mp hemp
    subst h0
    simp
  · rw [if_neg hemp]
    cases ht : jsOptTruthy filt
    · rw [if_neg (by simp [ht])]
      symm
      apply List.filter_eq_self.mpr
      intro a _
      simp [isPriceInRange, ht]
    · rw [if_pos rfl]

theorem namesNodup_filter (p : Apartment → Bool) (l : List Apartment) (h : NamesNodup l) :
    NamesNodup (l.filter p) := by
  have sub : List.Sublist ((l.filter p).map Apartment.name) (l.map Apartment.name) :=
    (List.filter_sublist l).map Apartment.name
  exact List.Nodup.sublist sub h

/-- Claim C1: after a render pass the rendered marker data are exactly
the loaded listings that pass the current price filter (hence a subset
of the loaded set), and when the filtered set is empty the
reconciliation removes every marker. -/
theorem claim1_markers_match_filter (s : AppState) (hnd : NamesNodup s.apartments) :
    (∀ a : Apartment,
        a ∈ (renderPass s).markers.map Marker.datum ↔
          a ∈ s.apartments ∧ isPriceInRange a s.currentPriceFilter = true) ∧
    (s.apartments.filter (fun a => isPriceInRange a s.currentPriceFilter) = [] →
        (renderPass s).markers = []) := by
  constructor
  · intro a
    show a ∈ (renderMarkers (getFilteredApartments s.apartments s.currentPriceFilter)
        s.markers).map Marker.datum ↔ _
    rw [getFilteredApartments_eq_filter,
      mem_renderMarkers_datums _ _ (namesNodup_filter _ _ hnd) a, List.mem_filter]
  · intro hempty
    show renderMarkers (getFilteredApartments s.apartments s.currentPriceFilter) s.markers = []
    rw [getFilteredApartments_eq_filter, hempty]
    rfl

/-- Claim C1 (witness): the theorem at a concrete two-listing state. -/
theorem claim1_witness :
    sampleBlock ∈ (renderPass sampleState).markers.map Marker.datum ↔
      sampleBlock ∈ sampleState.apartments ∧
        isPriceInRange sampleBlock sampleState.currentPriceFilter = true :=
  (claim1_markers_match_filter sampleState (by unfold NamesNodup; decide)).1 sampleBlock

theorem selectedCount_map (ms : List Marker) (f : Marker → Bool) :
    ((ms.map (fun m => { m with selected := f m })).filter (fun m => m.selected)).length
      = ms.countP f := by
  induction ms with
  | nil => rfl
  | cons m rest ih =>
      cases hf : f m
      · simp [List.filter_cons, hf, List.countP_cons, ih]
      · simp [List.filter_cons, hf, List.countP_cons, ih]

theorem countP_name_le_one (ms : List Marker) (hnd : MarkerNamesNodup ms) (n : String) :
    ms.countP (fun m => m.datum.name == n) ≤ 1 := by
  induction ms with
  | nil => simp
  | cons m rest ih =>
      rw [MarkerNamesNodup, List.map_cons, List.nodup_cons] at hnd
      rw [List.countP_cons]
      cases hm : (m.datum.name == n)
      · simpa using ih hnd.2
      · have hmn : m.datum.name = n := by simpa using hm
        have h0 : rest.countP (fun m2 => m2.datum.name == n) = 0 := by
          rw [List.countP_eq_zero]
          intro m2 hm2 hbeq
          have hm2n : m2.datum.name = n := by simpa using hbeq
          apply hnd.1
          rw [hmn, ← hm2n]
          exact List.mem_map_of_mem (fun m2 => m2.datum.name) hm2
        simp [h0, hm]

theorem applySelOp_names (s : AppState) (op : SelOp) :
    (applySelOp s op).markers.map (fun m => m.datum.name)
      = s.markers.map (fun m => m.datum.name) := by
  cases op with
  | choose a =>
      show (s.markers.map _).map _ = _
      rw [List.map_map]
      rfl
  | clear =>
      show (s.markers.map _).map _ = _
      rw [List.map_map]
      rfl

theorem applySelOps_names (s : AppState) (ops : List SelOp) :
    (applySelOps s ops).markers.map (fun m => m.datum.name)
      = s.markers.map (fun m => m.datum.name) := by
  induction ops generalizing s with
  | nil => rfl
  | cons op rest ih =>
      rw [applySelOps, List.foldl_cons]
      exact (ih (applySelOp s op)).trans (applySelOp_names s op)

/-- Claim C7: with pairwise-distinct marker keys, selecting a listing
whose marker is rendered leaves exactly one selected marker and every
selected marker carries the chosen name; clearing leaves zero; and any
nonempty sequence of select/clear interactions ends with at most one
selected marker. -/
theorem claim7_at_most_one_selected (s : AppState) (hnd : MarkerNamesNodup s.markers) :
    (∀ a : Apartment, s.markers.any (fun m => m.datum.name == a.name) = true →
        selectedCount (selectApartment a s) = 1) ∧
    (∀ a : Apartment, ∀ m ∈ (selectApartment a s).markers,
        m.selected = true → m.datum.name = a.name) ∧
    selectedCount (clearSelection s) = 0 ∧
    (∀ (ops : List SelOp) (op : SelOp),
        selectedCount (applySelOps s (ops ++ [op])) ≤ 1) := by
  have hsel : ∀ (t : AppState) (a : Apartment),
      selectedCount (selectApartment a t) = t.markers.countP (fun m => m.datum.name == a.name) :=
    fun t a => selectedCount_map t.markers (fun m => m.datum.name == a.name)
  have hclr : ∀ t : AppState, selectedCount (clearSelection t) = 0 := by
    intro t
    have h := selectedCount_map t.markers (fun _ => false)
    rw [List.countP_false] at h
    exact h
  refine ⟨fun a hex => ?_, fun a m hm hms => ?_, hclr s, fun ops op => ?_⟩
  · rw [hsel s a]
    have hle := countP_name_le_one s.markers hnd a.name
    have hpos : 0 < s.markers.countP (fun m => m.datum.name == a.name) :=
      List.countP_pos_iff.mpr (by
        obtain ⟨m, hmm, hmb⟩ := List.any_eq_true.mp hex
        exact ⟨m, hmm, hmb⟩)
    omega
  · simp only [selectApartment, List.mem_map] at hm
    obtain ⟨m0, _, heq⟩ := hm
    rw [← heq] at hms
    rw [← heq]
    simpa using hms
  · have happ : applySelOps s (ops ++ [op]) = applySelOp (applySelOps s ops) op := by
      rw [applySelOps, List.foldl_append]
      rfl
    rw [happ]
    have hnd2 : MarkerNamesNodup (applySelOps s ops).markers := by
      rw [MarkerNamesNodup, applySelOps_names]
      exact hnd
    cases op with
    | choose a =>
        rw [show applySelOp (applySelOps s ops) (SelOp.choose a)
            = selectApartment a (applySelOps s ops) from rfl]
        rw [hsel]
        exact countP_name_le_one _ hnd2 a.name
    | clear =>
        rw [show applySelOp (applySelOps s ops) SelOp.clear
            = clearSelection (applySelOps s ops) from rfl]
        rw [hclr]
        omega

/-- Claim C7 (witness): the theorem at a concrete two-marker state. -/
theorem claim7_witness :
    selectedCount (selectApartment sampleBlock sampleState) = 1 ∧
    selectedCount (applySelOps sampleState ([SelOp.choose sampleAxis] ++ [SelOp.clear])) ≤ 1 :=
  ⟨((claim7_at_most_one_selected sampleState (by unfold MarkerNamesNodup; decide)).1)
      sampleBlock (by decide),
   ((claim7_at_most_one_selected sampleState (by unfold MarkerNamesNodup; decide)).2.2.2)
      [SelOp.choose sampleAxis] SelOp.clear⟩

/-- Claim C4 (code-bug evidence): at a state where the only listing
(minimum price 950) is selected and shown in the panel,
filterByPrice("900") removes its marker yet leaves the panel showing
it.  renderMarkers runs before the selected-marker lookup, so the
lookup finds nothing and the clearSelection branch (whose source
comment promises the panel update) is unreachable. -/
theorem claim4_stale_panel_after_filter :
    (filterByPrice (JsVal.str "900") selectedState).markers = [] ∧
    (filterByPrice (JsVal.str "900") selectedState).panel
        = some (mkListing "Axis" "$950s" (some (JsNum.num 950))) ∧
    isPriceInRange (mkListing "Axis" "$950s" (some (JsNum.num 950)))
        (filterByPrice (JsVal.str "900") selectedState).currentPriceFilter = false := by
  decide

/-- Claim C5: a failed boundary fetch (any non-ok status, or a thrown
network/parse error) yields exactly the placeholder FeatureCollection
carrying the requested name and empty MultiPolygon coordinates; no
exception escapes (the modelled function is total). -/
theorem claim5_boundary_fallback (neighname : String) (status : Nat) :
    getNeighborhoodData neighname (FetchOutcome.httpError status)
        = ⟨"FeatureCollection", [⟨"Feature", ⟨neighname⟩, ⟨"MultiPolygon", [[[]]]⟩⟩]⟩ ∧
    getNeighborhoodData neighname FetchOutcome.thrown
        = ⟨"FeatureCollection", [⟨"Feature", ⟨neighname⟩, ⟨"MultiPolygon", [[[]]]⟩⟩]⟩ :=
  ⟨rfl, rfl⟩

/-- Claim C6: any listings-fetch failure (non-ok status, rejected
fetch, or parse error) shows exactly one toast, is absorbed by the
catch block (the modelled function is total), and still runs the
render pass; from the initial state the rendered listing set is
empty. -/
theorem claim6_listings_failure_notice (prior : LoadState) (f : ApartmentsFetch)
    (wOut uOut : FetchOutcome FeatureCollection) (hf : isApartmentsFailure f = true) :
    (loadData prior f wOut uOut).toasts = 1 ∧
    (loadData prior f wOut uOut).rendered = true ∧
    (loadData initialLoadState f wOut uOut).state.apartments = [] := by
  cases f with
  | ok apts => simp [isApartmentsFailure] at hf
  | httpError status => exact ⟨rfl, rfl, rfl⟩
  | netError => exact ⟨rfl, rfl, rfl⟩
  | parseError => exact ⟨rfl, rfl, rfl⟩

/-- Claim C6 (witness): an HTTP 500 on the listings endpoint with both
boundary fetches succeeding. -/
theorem claim6_witness :
    (loadData initialLoadState (ApartmentsFetch.httpError 500)
        (FetchOutcome.ok sampleBoundary) (FetchOutcome.ok sampleBoundary)).toasts = 1 ∧
    (loadData initialLoadState (ApartmentsFetch.httpError 500)
        (FetchOutcome.ok sampleBoundary) (FetchOutcome.ok sampleBoundary)).rendered = true ∧
    (loadData initialLoadState (ApartmentsFetch.httpError 500)
        (FetchOutcome.ok sampleBoundary) (FetchOutcome.ok sampleBoundary)).state.apartments = [] :=
  claim6_listings_failure_notice initialLoadState (ApartmentsFetch.httpError 500)
    (FetchOutcome.ok sampleBoundary) (FetchOutcome.ok sampleBoundary) (by decide)

/-- Claim C9: any listings-fetch failure leaves all three data fields
exactly as they were, and in particular on first load the boundary
data fetched successfully in the same joint await is discarded: both
neighborhood fields stay none because the assignments sit after the
listings-response validation. -/
theorem claim9_failure_discards_boundaries (prior : LoadState) (f : ApartmentsFetch)
    (wOut uOut : FetchOutcome FeatureCollection) (hf : isApartmentsFailure f = true) :
    (loadData prior f wOut uOut).state = prior ∧
    (loadData initialLoadState (ApartmentsFetch.httpError 500)
        (FetchOutcome.ok sampleBoundary)
        (FetchOutcome.ok sampleBoundary)).state.westUniversityNeighborhood = none ∧
    (loadData initialLoadState (ApartmentsFetch.httpError 500)
        (FetchOutcome.ok sampleBoundary)
        (FetchOutcome.ok sampleBoundary)).state.utCampusNeighborhood = none := by
  cases f with
  | ok apts => simp [isApartmentsFailure] at hf
  | httpError status => exact ⟨rfl, rfl, rfl⟩
  | netError => exact ⟨rfl, rfl, rfl⟩
  | parseError => exact ⟨rfl, rfl, rfl⟩

/-- Claim C9 (witness): a rejected listings fetch alongside successful
boundary fetches. -/
theorem claim9_witness :
    (loadData initialLoadState ApartmentsFetch.netError
        (FetchOutcome.ok sampleBoundary) (FetchOutcome.ok sampleBoundary)).state
      = initialLoadState :=
  (claim9_failure_discards_boundaries initialLoadState ApartmentsFetch.netError
    (FetchOutcome.ok sampleBoundary) (FetchOutcome.ok sampleBoundary) (by decide)).1

/-- Claim C8: in the later revision, updateOverlay invocations while a
callback is pending are dropped without scheduling work, the pending
flag is clear after the callback runs, and over any event sequence the
reposition work runs at most once per animation frame. -/
theorem claim8_overlay_debounce :
    (∀ s : OverlayState, s.pending = true → overlayStep s OverlayEvent.invoke = s) ∧
    (∀ s : OverlayState, (overlayStep s OverlayEvent.frame).pending = false) ∧
    (∀ s : OverlayState, (overlayStep s OverlayEvent.invoke).workRuns = s.workRuns) ∧
    (∀ (s : OverlayState) (events : List OverlayEvent),
        (overlayRun s events).workRuns ≤ s.workRuns + events.countP isFrame) := by
  have hinv : ∀ s : OverlayState, (overlayStep s OverlayEvent.invoke).workRuns = s.workRuns := by
    intro s
    cases hp : s.pending <;> simp [overlayStep, hp]
  refine ⟨fun s hp => ?_, fun s => ?_, hinv, fun s events => ?_⟩
  · simp [overlayStep, hp]
  · cases hp : s.pending <;> simp [overlayStep, hp]
  · induction events generalizing s with
    | nil => simp [overlayRun]
    | cons e rest ih =>
        have key : overlayRun s (e :: rest) = overlayRun (overlayStep s e) rest := rfl
        rw [key]
        have hstep := ih (overlayStep s e)
        rw [List.countP_cons]
        cases e with
        | invoke =>
            rw [hinv s] at hstep
            simp only [isFrame, Bool.false_eq_true, if_false]
            omega
        | frame =>
            have hw : (overlayStep s OverlayEvent.frame).workRuns ≤ s.workRuns + 1 := by
              cases hp : s.pending <;> simp [overlayStep, hp]
            simp only [isFrame, if_true]
            omega

/-- Claim C8 (witness): a pending invocation is dropped, and a burst of
invocations around one frame does at most one unit of work. -/
theorem claim8_witness :
    overlayStep ⟨true, 5⟩ OverlayEvent.invoke = ⟨true, 5⟩ ∧
    (overlayRun ⟨false, 0⟩
        [OverlayEvent.invoke, OverlayEvent.invoke, OverlayEvent.frame,
         OverlayEvent.invoke]).workRuns
      ≤ (⟨false, 0⟩ : OverlayState).workRuns
        + [OverlayEvent.invoke, OverlayEvent.invoke, OverlayEvent.frame,
           OverlayEvent.invoke].countP isFrame :=
  ⟨claim8_overlay_debounce.1 ⟨true, 5⟩ rfl,
   claim8_overlay_debounce.2.2.2 ⟨false, 0⟩
     [OverlayEvent.invoke, OverlayEvent.invoke, OverlayEvent.frame, OverlayEvent.invoke]⟩

end ApartmentFinder
